import Mathlib

set_option autoImplicit false

/-!
# Verification of the listing normalizer and batch image ingestor

Shallow embedding of the data-transformation layer of the rentify-houses-kenya
repository: `transformImages`, `toDbFormat`/`fromDbFormat`, `createListing`,
`getAgentMetrics` (src/services/listingService.ts) and
`uploadImagesToStorageAndSaveMetadata` (src/utils/imageUploadHelper.ts).

JavaScript semantics relevant to the embedding:
- `x || d` uses truthiness: `undefined`, `null`, `""`, `0`, `false` are falsy.
- Property access on a string (`"s".id`) yields `undefined`.
- Arrays are always truthy, including the empty array.
- `name.split('.')` always yields a non-empty array; `.pop()` yields its last
  element.
-/

namespace Rentify

/-- JS `x || d` for an optional string: the default is taken when the value is
absent or the empty string (both falsy). -/
def jsOrStr (x : Option String) (d : String) : String :=
  match x with
  | none => d
  | some s => if s = "" then d else s

/-- JS `x || undefined` for an optional string: an empty string collapses to
`undefined`. -/
def jsOrNone (x : Option String) : Option String :=
  match x with
  | none => none
  | some s => if s = "" then none else some s

/-- Truthiness of an optional string (absent and `""` are falsy). -/
def strTruthy (x : Option String) : Bool :=
  match x with
  | none => false
  | some s => s != ""

/-! ## Image normalization (`transformImages`, listingService.ts lines 267-322) -/

/-- The `ai_scan` sub-object of a `property_images` row. -/
structure AiScan where
  status : Option String
  reason : Option String
  deriving Repr, DecidableEq

/-- One element of the raw `images` array: either a plain URL string or an
object carrying any subset of the image fields (relational rows carry `id`,
`url`, `ai_scan`; legacy objects carry camelCase fields). -/
inductive RawImage where
  | str (s : String)
  | obj (id url altText aiScanStatus aiScanReason : Option String)
        (ai_scan : Option AiScan)
  deriving Repr, DecidableEq

/-- A JS value that can appear in the `url` field of a transformed image:
`img.url` may be `undefined`, and `img.url || img` may be the whole raw
object. -/
inductive JsVal where
  | undef
  | str (s : String)
  | objv (r : RawImage)
  deriving Repr, DecidableEq

/-- The normalized `PropertyImage` produced by `transformImages`. -/
structure PropertyImage where
  id : String
  url : JsVal
  altText : Option String
  aiScanStatus : String
  aiScanReason : Option String
  deriving Repr, DecidableEq

/-- The raw `images` value of a wire record: `null`/`undefined`/other falsy
(`nullish`), an array, a bare string, or some other truthy non-array
non-string value. -/
inductive ImagesInput where
  | nullish
  | arr (xs : List RawImage)
  | single (s : String)
  | other
  deriving Repr, DecidableEq

/-- `images.map((img, index) => ...)`: map with the element index. -/
def mapWithIndex {α β : Type} (f : Nat → α → β) : Nat → List α → List β
  | _, [] => []
  | i, a :: as => f i a :: mapWithIndex f (i + 1) as

/-- The relational-row branch of `transformImages`:
`{id: img.id || `img-${index}`, url: img.url, altText: undefined,
aiScanStatus: img.ai_scan?.status || 'pending',
aiScanReason: img.ai_scan?.reason || undefined}`.
On a string element, `.id`, `.url` and `.ai_scan` are all `undefined`. -/
def relMapElem (i : Nat) (img : RawImage) : PropertyImage :=
  match img with
  | .str _ =>
      { id := "img-" ++ toString i
        url := .undef
        altText := none
        aiScanStatus := "pending"
        aiScanReason := none }
  | .obj id url _ _ _ ai_scan =>
      { id := jsOrStr id ("img-" ++ toString i)
        url := match url with
               | none => .undef
               | some u => .str u
        altText := none
        aiScanStatus := jsOrStr (ai_scan.bind AiScan.status) "pending"
        aiScanReason := jsOrNone (ai_scan.bind AiScan.reason) }

/-- The legacy/mixed branch of `transformImages`: strings become
`{id: `img-${index}`, url: img, aiScanStatus: 'pending'}`; objects become
`{id: img.id || `img-${index}`, url: img.url || img,
altText: img.altText || undefined, aiScanStatus: img.aiScanStatus || 'pending',
aiScanReason: img.aiScanReason || undefined}`. -/
def legacyMapElem (i : Nat) (img : RawImage) : PropertyImage :=
  match img with
  | .str s =>
      { id := "img-" ++ toString i
        url := .str s
        altText := none
        aiScanStatus := "pending"
        aiScanReason := none }
  | .obj id url altText aiScanStatus aiScanReason ai_scan =>
      { id := jsOrStr id ("img-" ++ toString i)
        url := match url with
               | some u => if u = "" then .objv (.obj id url altText aiScanStatus aiScanReason ai_scan)
                           else .str u
               | none => .objv (.obj id url altText aiScanStatus aiScanReason ai_scan)
        altText := jsOrNone altText
        aiScanStatus := jsOrStr aiScanStatus "pending"
        aiScanReason := jsOrNone aiScanReason }

/-- `firstImg && (firstImg.id || firstImg.url)`: a string first element is
never classified as a relational row (its `.id`/`.url` are `undefined`, and
the empty string is itself falsy); an object is one iff `id` or `url` is
truthy. -/
def isRelationalFirst (img : RawImage) : Bool :=
  match img with
  | .str _ => false
  | .obj id url _ _ _ _ => strTruthy id || strTruthy url

/-- `transformImages` (listingService.ts lines 267-322). A falsy input
(including the bare empty string, caught by `if (!images) return []`) yields
`[]`; a non-empty array dispatches on the shape of its first element; a
non-empty bare string yields a one-element list; anything else yields `[]`. -/
def transformImages (images : ImagesInput) : List PropertyImage :=
  match images with
  | .nullish => []
  | .arr [] => []
  | .arr (x :: xs) =>
      if isRelationalFirst x then mapWithIndex relMapElem 0 (x :: xs)
      else mapWithIndex legacyMapElem 0 (x :: xs)
  | .single s =>
      if s = "" then []
      else [{ id := "img-0", url := .str s, altText := none,
              aiScanStatus := "pending", aiScanReason := none }]
  | .other => []

/-! ## Wire → app normalization (`fromDbFormat`, listingService.ts lines 384-438) -/

/-- A decoded location object (the code treats it opaquely: it is either the
result of `JSON.parse` or passed through unchanged). -/
structure LocObj where
  address : String
  county : String
  neighborhood : String
  lat : Option Int
  lng : Option Int
  deriving Repr, DecidableEq

/-- The wire `location` value: either a JSON-encoded string or an
already-decoded object. -/
inductive LocWire where
  | str (s : String)
  | obj (o : LocObj)
  deriving Repr, DecidableEq

/-- The joined `agent:profiles` sub-record of a wire listing row. -/
structure WireAgent where
  id : String
  full_name : String
  email : String
  phone_number : Option String
  is_verified_agent : Option Bool
  profile_picture_url : Option String
  deriving Repr, DecidableEq

/-- The app-level agent (the `User` shape of types.ts, with `role` as its
string value: `UserRole.AGENT = 'agent'`). -/
structure AppUser where
  id : String
  name : String
  email : String
  phoneNumber : String
  isVerifiedAgent : Bool
  profilePictureUrl : String
  role : String
  createdAt : String
  deriving Repr, DecidableEq

/-- A raw row of the `listings` table as the read paths receive it
(snake_cased, with the optional joined agent). -/
structure WireRecord where
  id : String
  title : String
  description : String
  price : Int
  bedrooms : Int
  bathrooms : Int
  area_sq_ft : Option Int
  amenities : Option (List String)
  status : String
  is_featured : Option Bool
  created_at : String
  updated_at : String
  saves : Option Int
  views : Option Int
  location : LocWire
  images : ImagesInput
  agent : Option WireAgent
  agent_id : String
  deriving Repr, DecidableEq

/-- The app-level `PropertyListing` shape (types.ts). -/
structure PropertyListing where
  id : String
  title : String
  description : String
  price : Int
  bedrooms : Int
  bathrooms : Int
  areaSqFt : Option Int
  amenities : List String
  status : String
  isFeatured : Bool
  createdAt : String
  updatedAt : String
  saves : Int
  views : Int
  location : LocObj
  images : List PropertyImage
  agent : AppUser
  deriving Repr, DecidableEq

/-- The `agent` field of `fromDbFormat`: joined-record branch with
`|| ''` / `|| false` fallbacks, else the placeholder built from `agent_id`. -/
def agentFromWire (w : WireRecord) : AppUser :=
  match w.agent with
  | some a =>
      { id := a.id
        name := a.full_name
        email := a.email
        phoneNumber := jsOrStr a.phone_number ""
        isVerifiedAgent := a.is_verified_agent.getD false
        profilePictureUrl := jsOrStr a.profile_picture_url ""
        role := "agent"
        createdAt := "" }
  | none =>
      { id := w.agent_id
        name := ""
        email := ""
        phoneNumber := ""
        isVerifiedAgent := false
        profilePictureUrl := ""
        role := "agent"
        createdAt := "" }

/-- The record built by `fromDbFormat` once the location value is available
(`?? null`, `|| []`, `?? false`, `|| 0` defaults as in the source; note an
empty amenities array is truthy in JS, so `|| []` only replaces a nullish
value, matching `Option.getD`). -/
def buildListing (w : WireRecord) (loc : LocObj) : PropertyListing :=
  { id := w.id
    title := w.title
    description := w.description
    price := w.price
    bedrooms := w.bedrooms
    bathrooms := w.bathrooms
    areaSqFt := w.area_sq_ft
    amenities := w.amenities.getD []
    status := w.status
    isFeatured := w.is_featured.getD false
    createdAt := w.created_at
    updatedAt := w.updated_at
    saves := w.saves.getD 0
    views := w.views.getD 0
    location := loc
    images := transformImages w.images
    agent := agentFromWire w }

/-- `fromDbFormat` (listingService.ts lines 384-438), parameterized by the
`JSON.parse` oracle for location strings: a parse failure propagates as the
thrown exception; an object location is used as-is. -/
def fromDbFormat (jsonParse : String → Except String LocObj)
    (w : WireRecord) : Except String PropertyListing :=
  match w.location with
  | .str s => (jsonParse s).map (buildListing w)
  | .obj o => .ok (buildListing w o)

/-! ## Batch image ingestor (`uploadImagesToStorageAndSaveMetadata`,
imageUploadHelper.ts lines 72-175) -/

/-- The fields of a candidate `File` the ingestor reads. -/
structure UploadFile where
  name : String
  type : String
  size : Nat
  deriving Repr, DecidableEq

/-- One network call made by the ingestor (trace alphabet). -/
inductive NetCall where
  | authGetUser
  | storageUpload (path : String) (upsert : Bool)
  | getPublicUrl (path : String)
  | dbInsert (table : String) (listingId : String) (url : String)
  deriving Repr, DecidableEq

/-- The external world the ingestor interacts with, as oracles indexed by the
file's position in the batch: the authenticated user (or absence), the
generated unique name, whether the primary upload / the upsert retry / the
metadata insert succeed, and the public-URL resolver. -/
structure UploadEnv where
  user : Option String
  uuid : Nat → String
  uploadOk : Nat → Bool
  retryOk : Nat → Bool
  insertOk : Nat → Bool
  publicUrl : String → String

/-- JS `name.split('.')` for a single-character separator: always yields a
non-empty list of groups. -/
def jsSplit (sep : Char) : List Char → List (List Char)
  | [] => [[]]
  | c :: cs =>
      match jsSplit sep cs with
      | [] => [[]]
      | g :: gs => if c = sep then [] :: g :: gs else (c :: g) :: gs

/-- JS `.pop()` on the (always non-empty) split result: the last group. -/
def lastGroup : List (List Char) → List Char
  | [] => []
  | [g] => g
  | _ :: g :: gs => lastGroup (g :: gs)

/-- `file.name.split('.').pop() || 'jpg'`: the last dot-separated segment of
the name, with `'jpg'` substituted only when that segment is the (falsy)
empty string. -/
def fileExtChars (name : List Char) : List Char :=
  let last := lastGroup (jsSplit '.' name)
  if last = [] then "jpg".data else last

/-- String-level wrapper of `fileExtChars`. -/
def fileExtOf (name : String) : String :=
  ⟨fileExtChars name.data⟩

/-- JS `s.startsWith(pre)`: character-level prefix test. -/
def strStartsWith (s pre : String) : Bool :=
  pre.data.isPrefixOf s.data

/-- The per-file pipeline of `uploadImagesToStorageAndSaveMetadata`: type
check, size check, name generation, primary upload, single upsert retry,
public-URL resolution, metadata insert (whose failure only logs — the URL was
already pushed). Returns the network calls made and the URL contributed to
the success list, if any. -/
def processFile (env : UploadEnv) (listingId : String) (i : Nat)
    (f : UploadFile) : List NetCall × Option String :=
  if ¬ strStartsWith f.type "image/" then ([], none)
  else if f.size > 10 * 1024 * 1024 then ([], none)
  else
    let fileName := env.uuid i ++ "." ++ fileExtOf f.name
    let filePath := listingId ++ "/" ++ fileName
    let url := env.publicUrl filePath
    let tailCalls := [NetCall.getPublicUrl filePath,
                      NetCall.dbInsert "property_images" listingId url]
    if env.uploadOk i then
      (NetCall.storageUpload filePath false :: tailCalls, some url)
    else if env.retryOk i then
      (NetCall.storageUpload filePath false ::
         NetCall.storageUpload filePath true :: tailCalls, some url)
    else
      ([NetCall.storageUpload filePath false,
        NetCall.storageUpload filePath true], none)

/-- The `for (const file of files)` loop: sequential, accumulating the trace
and the URLs of the files that succeeded, in input order. -/
def runFiles (env : UploadEnv) (listingId : String) :
    Nat → List UploadFile → List NetCall × List String
  | _, [] => ([], [])
  | i, f :: fs =>
      let r := processFile env listingId i f
      let rest := runFiles env listingId (i + 1) fs
      (r.1 ++ rest.1,
       (match r.2 with | some u => [u] | none => []) ++ rest.2)

/-- `uploadImagesToStorageAndSaveMetadata` (imageUploadHelper.ts lines
72-175): the authentication check runs first unconditionally; its failure is
the only thrown condition; otherwise the per-file loop runs and the collected
URLs are returned. -/
def uploadImagesToStorageAndSaveMetadata (env : UploadEnv)
    (listingId : String) (files : List UploadFile) :
    List NetCall × Except String (List String) :=
  match env.user with
  | none => ([NetCall.authGetUser],
             .error "User must be authenticated to upload images")
  | some _ =>
      let r := runFiles env listingId 0 files
      (NetCall.authGetUser :: r.1, .ok r.2)

/-! ## `createListing` (listingService.ts lines 615-672) -/

/-- A legacy embedded-JSON image object as produced by `toDbFormat`'s image
mapping. When the caller passes plain URL strings (the `createListing`
signature), every projected field (`img.id`, `img.url`, ...) is `undefined`. -/
structure LegacyImgOut where
  id : Option String
  url : Option String
  altText : Option String
  aiScanStatus : Option String
  aiScanReason : Option String
  deriving Repr, DecidableEq

/-- The row shape sent to the `listings` table by the write path
(snake_cased, with the optional legacy embedded `images` column). -/
structure ListingsInsertRow where
  title : String
  description : String
  price : Int
  bedrooms : Int
  bathrooms : Int
  area_sq_ft : Option Int
  amenities : List String
  status : String
  is_featured : Bool
  location : LocObj
  images : Option (List LegacyImgOut)
  deriving Repr, DecidableEq

/-- The caller-supplied input of `createListing`: a `PropertyListing` minus
the generated fields, with `images` as an optional list of URL strings. -/
structure CreateListingInput where
  title : String
  description : String
  price : Int
  bedrooms : Int
  bathrooms : Int
  areaSqFt : Option Int
  amenities : List String
  status : String
  isFeatured : Bool
  location : LocObj
  images : Option (List String)
  deriving Repr, DecidableEq

/-- `toDbFormat` (listingService.ts lines 337-364) applied to a
`createListing` input: camelCase fields renamed to snake_case, and a present
`images` array mapped element-wise to the legacy object shape (each source
element here is a string, so every projected field is `undefined`). -/
def toDbFormat (l : CreateListingInput) : ListingsInsertRow :=
  { title := l.title
    description := l.description
    price := l.price
    bedrooms := l.bedrooms
    bathrooms := l.bathrooms
    area_sq_ft := l.areaSqFt
    amenities := l.amenities
    status := l.status
    is_featured := l.isFeatured
    location := l.location
    images := l.images.map (fun urls =>
      urls.map (fun _ => ⟨none, none, none, none, none⟩)) }

/-- A row of the `property_images` table as inserted by `createListing`
(`ai_scan: {status: 'pending', scanned_at: null}`). -/
structure PropertyImageRow where
  listing_id : String
  url : String
  ai_scan_status : String
  ai_scan_scanned_at : Option String
  deriving Repr, DecidableEq

/-- The relational store's response to the main listing insert: an error or
the created row's identifier. -/
structure CreateEnv where
  insertResult : Except String String

/-- `createListing` (listingService.ts lines 615-672): builds the insert
payload with `status` forced to `'pending_verification'` and `images`
deleted, sends it, throws on insert error, then inserts one
`property_images` row per supplied URL keyed by the new identifier (the
trailing `getListingById` re-fetch is outside this model). Returns the row
sent to `listings`, the rows sent to `property_images`, and the outcome. -/
def createListing (env : CreateEnv) (l : CreateListingInput) :
    ListingsInsertRow × List PropertyImageRow × Except String String :=
  let row := { toDbFormat l with status := "pending_verification",
                                 images := none }
  match env.insertResult with
  | .error e => (row, [], .error e)
  | .ok newId =>
      let imgRows :=
        match l.images with
        | some urls =>
            if urls.length > 0 then
              urls.map (fun u => ⟨newId, u, "pending", none⟩)
            else []
        | none => []
      (row, imgRows, .ok newId)

/-! ## `getAgentMetrics` (listingService.ts lines 763-788) -/

/-- A row of the `select('status')` projection of the `listings` table. -/
structure StatusRow where
  status : String
  deriving Repr, DecidableEq

/-- The `AgentMetrics` shape of types.ts. -/
structure AgentMetrics where
  totalListings : Nat
  activeListings : Nat
  totalViews : Nat
  totalSaves : Nat
  totalInquiries : Nat
  averageRating : Option Nat
  deriving Repr, DecidableEq

/-- `getAgentMetrics` (listingService.ts lines 763-788), parameterized by the
store's response to the per-agent `status` query: a store error is thrown;
otherwise only `totalListings` and `activeListings` are computed from the
rows, and the remaining metrics are the hard-coded TODO placeholders. -/
def getAgentMetrics (fetch : String → Except String (List StatusRow))
    (agentId : String) : Except String AgentMetrics :=
  (fetch agentId).map fun data =>
    { totalListings := data.length
      activeListings := (data.filter fun d => d.status == "available").length
      totalViews := 0
      totalSaves := 0
      totalInquiries := 0
      averageRating := none }

/-! ## Concrete sample values used by closed witnesses -/

/-- A concrete wire record with an already-decoded object location and no
joined agent. -/
def sampleWireObj : WireRecord :=
  { id := "L1", title := "t", description := "d", price := 1000,
    bedrooms := 2, bathrooms := 1, area_sq_ft := none, amenities := none,
    status := "available", is_featured := none, created_at := "c",
    updated_at := "u", saves := none, views := none,
    location := .obj ⟨"addr", "Nairobi", "nb", none, none⟩,
    images := .nullish, agent := none, agent_id := "A1" }

/-- The same record with a malformed JSON string as its location. -/
def sampleWireBadLoc : WireRecord :=
  { sampleWireObj with location := .str "\x7binvalid json" }

/-- A `JSON.parse` oracle that fails on every input, standing for the parse
of malformed JSON. -/
def failParse : String → Except String LocObj :=
  fun _ => .error "SyntaxError: Unexpected token"

/-- A concrete ingestor environment with no authenticated user. -/
def envNoAuth : UploadEnv :=
  { user := none, uuid := fun _ => "u0", uploadOk := fun _ => true,
    retryOk := fun _ => true, insertOk := fun _ => true,
    publicUrl := fun p => "https://cdn/" ++ p }

/-- The same environment with an authenticated user. -/
def envAuth : UploadEnv :=
  { envNoAuth with user := some "agent@example.com" }

/-! ## Helper lemmas -/

theorem mapWithIndex_length {α β : Type} (f : Nat → α → β) :
    ∀ (i : Nat) (xs : List α), (mapWithIndex f i xs).length = xs.length := by
  intro i xs
  induction xs generalizing i with
  | nil => rfl
  | cons a as ih => simp [mapWithIndex, ih]

theorem mapWithIndex_getElem? {α β : Type} (f : Nat → α → β) :
    ∀ (xs : List α) (i j : Nat),
      (mapWithIndex f i xs)[j]? = (xs[j]?).map (f (i + j)) := by
  intro xs
  induction xs with
  | nil => intro i j; simp [mapWithIndex]
  | cons a as ih =>
      intro i j
      cases j with
      | zero => simp [mapWithIndex]
      | succ j =>
          simp only [mapWithIndex, List.getElem?_cons_succ]
          rw [ih (i + 1) j]
          have : i + 1 + j = i + (j + 1) := by omega
          rw [this]

theorem mapWithIndex_mem {α β : Type} (f : Nat → α → β) (P : β → Prop)
    (h : ∀ (j : Nat) (a : α), P (f j a)) :
    ∀ (i : Nat) (xs : List α), ∀ b ∈ mapWithIndex f i xs, P b := by
  intro i xs
  induction xs generalizing i with
  | nil => intro b hb; simp [mapWithIndex] at hb
  | cons a as ih =>
      intro b hb
      simp only [mapWithIndex, List.mem_cons] at hb
      rcases hb with hb | hb
      · exact hb ▸ h i a
      · exact ih (i + 1) b hb

theorem jsOrStr_ne_empty (x : Option String) (d : String) (hd : d ≠ "") :
    jsOrStr x d ≠ "" := by
  cases x with
  | none => exact hd
  | some s =>
      by_cases hs : s = ""
      · simp [jsOrStr, hs, hd]
      · simp [jsOrStr, hs]

theorem img_prefix_ne_empty (i : Nat) : ("img-" ++ toString i) ≠ "" := by
  intro h
  have hlen := congrArg String.length h
  rw [String.length_append] at hlen
  have h4 : ("img-" : String).length = 4 := rfl
  have hz : ("" : String).length = 0 := rfl
  omega

theorem relMapElem_id_ne_empty (i : Nat) (img : RawImage) :
    (relMapElem i img).id ≠ "" := by
  cases img with
  | str s => exact img_prefix_ne_empty i
  | obj id url a b c ai =>
      exact jsOrStr_ne_empty id ("img-" ++ toString i) (img_prefix_ne_empty i)

theorem relMapElem_status_ne_empty (i : Nat) (img : RawImage) :
    (relMapElem i img).aiScanStatus ≠ "" := by
  cases img with
  | str s => simp [relMapElem]
  | obj id url a b c ai =>
      exact jsOrStr_ne_empty (ai.bind AiScan.status) "pending" (by decide)

theorem legacyMapElem_id_ne_empty (i : Nat) (img : RawImage) :
    (legacyMapElem i img).id ≠ "" := by
  cases img with
  | str s => exact img_prefix_ne_empty i
  | obj id url a b c ai =>
      exact jsOrStr_ne_empty id ("img-" ++ toString i) (img_prefix_ne_empty i)

theorem legacyMapElem_status_ne_empty (i : Nat) (img : RawImage) :
    (legacyMapElem i img).aiScanStatus ≠ "" := by
  cases img with
  | str s => simp [legacyMapElem]
  | obj id url a b c ai =>
      exact jsOrStr_ne_empty b "pending" (by decide)

theorem transformImages_arr_cons (x : RawImage) (xs : List RawImage) :
    transformImages (.arr (x :: xs)) =
      if isRelationalFirst x then mapWithIndex relMapElem 0 (x :: xs)
      else mapWithIndex legacyMapElem 0 (x :: xs) := rfl

theorem isRelationalFirst_not_true {x : RawImage}
    (hx : isRelationalFirst x = false) : ¬ (isRelationalFirst x = true) := by
  rw [hx]; exact Bool.false_ne_true

/-! ## Claims about `transformImages` -/

/-- **C1**: the image-normalization step of the wire→app conversion yields the
same one-element normalized list for a legacy bare-URL element and for a
relational/object element carrying only that URL; in the generic-array
(non-relational-first) branch, a plain URL string at index `i` normalizes to
`{id: "img-<i>", url: <that string>, aiScanStatus: 'pending'}` with `altText`
and `aiScanReason` absent; and the dispatch is applied in priority order:
relational-row shape first (by the first element's `id`/`url`), then the
generic array mapping, then the bare-string case, then empty. -/
theorem C1_image_variant_determinism (u : String) (hu : u ≠ "") :
    (transformImages (.arr [.str u]) =
       [{ id := "img-0", url := .str u, altText := none,
          aiScanStatus := "pending", aiScanReason := none }] ∧
     transformImages (.arr [.obj none (some u) none none none none]) =
       [{ id := "img-0", url := .str u, altText := none,
          aiScanStatus := "pending", aiScanReason := none }]) ∧
    (∀ (x : RawImage) (xs : List RawImage), isRelationalFirst x = true →
       transformImages (.arr (x :: xs)) = mapWithIndex relMapElem 0 (x :: xs)) ∧
    (∀ (x : RawImage) (xs : List RawImage) (i : Nat) (s : String),
       isRelationalFirst x = false → (x :: xs)[i]? = some (.str s) →
       (transformImages (.arr (x :: xs)))[i]? =
         some { id := "img-" ++ toString i, url := .str s, altText := none,
                aiScanStatus := "pending", aiScanReason := none }) ∧
    (∀ s : String, s ≠ "" → transformImages (.single s) =
       [{ id := "img-0", url := .str s, altText := none,
          aiScanStatus := "pending", aiScanReason := none }]) ∧
    transformImages .nullish = [] := by
  have h0 : ("img-" ++ toString 0 : String) = "img-0" := by decide
  refine ⟨⟨?_, ?_⟩, ?_, ?_, ?_, rfl⟩
  · have e1 : transformImages (.arr [.str u]) = [legacyMapElem 0 (.str u)] := rfl
    rw [e1]
    simp only [legacyMapElem, h0]
  · have hrel : isRelationalFirst (.obj none (some u) none none none none) = true := by
      show (strTruthy none || strTruthy (some u)) = true
      simp [strTruthy, hu]
    rw [transformImages_arr_cons, if_pos hrel]
    show [relMapElem 0 (.obj none (some u) none none none none)] = _
    simp only [relMapElem, jsOrStr, jsOrNone, Option.bind, h0]
  · intro x xs hx
    rw [transformImages_arr_cons, if_pos hx]
  · intro x xs i s hx hi
    rw [transformImages_arr_cons, if_neg (isRelationalFirst_not_true hx)]
    rw [mapWithIndex_getElem? legacyMapElem (x :: xs) 0 i, hi]
    simp [legacyMapElem]
  · intro s hs
    simp [transformImages, hs]

/-- Closed witness for `C1_image_variant_determinism` at
`u = "http://x/a.jpg"`. -/
theorem C1_witness :
    transformImages (.arr [.str "http://x/a.jpg"]) =
      [{ id := "img-0", url := .str "http://x/a.jpg", altText := none,
         aiScanStatus := "pending", aiScanReason := none }] ∧
    transformImages (.arr [.obj none (some "http://x/a.jpg") none none none none]) =
      [{ id := "img-0", url := .str "http://x/a.jpg", altText := none,
         aiScanStatus := "pending", aiScanReason := none }] :=
  (C1_image_variant_determinism "http://x/a.jpg" (by decide)).1

/-- **C5**: for every accepted images input, the normalized output preserves
input order and length (position `i` of the output is the image-wise
transform of position `i` of the input, under the branch selected by the
first element), every output `id` is non-empty (synthesized as `img-<index>`
when the input carries none), and every output `aiScanStatus` is non-empty
(defaulting to `'pending'`); a non-empty bare URL string yields a one-element
list and an absent/null input yields the empty list. -/
theorem C5_normalizer_invariants :
    (∀ xs : List RawImage,
       (transformImages (.arr xs)).length = xs.length ∧
       (∀ (x : RawImage) (rest : List RawImage) (i : Nat), xs = x :: rest →
          (transformImages (.arr xs))[i]? =
            (xs[i]?).map
              ((if isRelationalFirst x then relMapElem else legacyMapElem) i)) ∧
       (∀ p ∈ transformImages (.arr xs), p.id ≠ "" ∧ p.aiScanStatus ≠ "")) ∧
    (∀ s : String, s ≠ "" →
       transformImages (.single s) =
         [{ id := "img-0", url := .str s, altText := none,
            aiScanStatus := "pending", aiScanReason := none }] ∧
       ∀ p ∈ transformImages (.single s), p.id ≠ "" ∧ p.aiScanStatus ≠ "") ∧
    transformImages .nullish = [] := by
  refine ⟨?_, ?_, rfl⟩
  · intro xs
    refine ⟨?_, ?_, ?_⟩
    · cases xs with
      | nil => rfl
      | cons x rest =>
          cases hx : isRelationalFirst x with
          | true =>
              rw [transformImages_arr_cons, if_pos hx, mapWithIndex_length]
          | false =>
              rw [transformImages_arr_cons,
                  if_neg (isRelationalFirst_not_true hx), mapWithIndex_length]
    · intro x rest i hxs
      subst hxs
      cases hx : isRelationalFirst x with
      | true =>
          rw [transformImages_arr_cons, if_pos hx, if_pos rfl]
          rw [mapWithIndex_getElem? relMapElem (x :: rest) 0 i]
          simp
      | false =>
          rw [transformImages_arr_cons,
              if_neg (isRelationalFirst_not_true hx),
              if_neg Bool.false_ne_true]
          rw [mapWithIndex_getElem? legacyMapElem (x :: rest) 0 i]
          simp
    · intro p hp
      cases xs with
      | nil => simp [transformImages] at hp
      | cons x rest =>
          rw [transformImages_arr_cons] at hp
          cases hx : isRelationalFirst x with
          | true =>
              rw [if_pos hx] at hp
              exact mapWithIndex_mem relMapElem
                (fun b => b.id ≠ "" ∧ b.aiScanStatus ≠ "")
                (fun j a => ⟨relMapElem_id_ne_empty j a, relMapElem_status_ne_empty j a⟩)
                0 (x :: rest) p hp
          | false =>
              rw [if_neg (isRelationalFirst_not_true hx)] at hp
              exact mapWithIndex_mem legacyMapElem
                (fun b => b.id ≠ "" ∧ b.aiScanStatus ≠ "")
                (fun j a => ⟨legacyMapElem_id_ne_empty j a, legacyMapElem_status_ne_empty j a⟩)
                0 (x :: rest) p hp
  · intro s hs
    constructor
    · simp [transformImages, hs]
    · intro p hp
      simp only [transformImages, hs, if_false, List.mem_singleton] at hp
      subst hp
      refine ⟨?_, ?_⟩
      · show ("img-0" : String) ≠ ""
        decide
      · show ("pending" : String) ≠ ""
        decide

/-- Closed witness for `C5_normalizer_invariants` on a concrete mixed legacy
array and a concrete bare string. -/
theorem C5_witness :
    (transformImages (.arr [.str "http://x/a.jpg",
        .obj (some "k7") none none (some "clear") none none])).length = 2 ∧
    (∀ p ∈ transformImages (.arr [.str "http://x/a.jpg",
        .obj (some "k7") none none (some "clear") none none]),
       p.id ≠ "" ∧ p.aiScanStatus ≠ "") ∧
    transformImages (.single "http://x/b.jpg") =
      [{ id := "img-0", url := .str "http://x/b.jpg", altText := none,
         aiScanStatus := "pending", aiScanReason := none }] :=
  ⟨(C5_normalizer_invariants.1 _).1,
   (C5_normalizer_invariants.1 _).2.2,
   (C5_normalizer_invariants.2.1 "http://x/b.jpg" (by decide)).1⟩

/-! ## Claims about `fromDbFormat` -/

theorem fromDbFormat_ok_shape (parse : String → Except String LocObj)
    (w : WireRecord) (P : PropertyListing)
    (hok : fromDbFormat parse w = .ok P) : ∃ loc, P = buildListing w loc := by
  cases hl : w.location with
  | str s =>
      have hmap : (parse s).map (buildListing w) = .ok P := by
        rw [← hok]; simp [fromDbFormat, hl]
      cases hps : parse s with
      | error e =>
          rw [hps] at hmap
          exact absurd hmap (by simp [Except.map])
      | ok o =>
          rw [hps] at hmap
          simp only [Except.map, Except.ok.injEq] at hmap
          exact ⟨o, hmap.symm⟩
  | obj o =>
      have hmap : (Except.ok (buildListing w o) : Except String PropertyListing) = .ok P := by
        rw [← hok]; simp [fromDbFormat, hl]
      simp only [Except.ok.injEq] at hmap
      exact ⟨o, hmap.symm⟩

/-- **C3**: a wire record whose `location` is a string hands it to
`JSON.parse`; a parse failure propagates to the caller unchanged (no default
or empty location is substituted), and a wire record whose `location` is
already an object has that object passed through unchanged into the
successful result. -/
theorem C3_location_parse_propagates (parse : String → Except String LocObj)
    (w : WireRecord) :
    (∀ (s : String) (e : String), w.location = .str s → parse s = .error e →
       fromDbFormat parse w = .error e) ∧
    (∀ o : LocObj, w.location = .obj o →
       ∃ P, fromDbFormat parse w = .ok P ∧ P.location = o) := by
  constructor
  · intro s e hls hp
    simp [fromDbFormat, hls, hp, Except.map]
  · intro o hlo
    exact ⟨buildListing w o, by simp [fromDbFormat, hlo], rfl⟩

/-- Closed witness for `C3_location_parse_propagates`: a malformed location
string makes `fromDbFormat` raise (with the parser's error), and an object
location is passed through. -/
theorem C3_witness :
    fromDbFormat failParse sampleWireBadLoc =
      .error "SyntaxError: Unexpected token" ∧
    ∃ P, fromDbFormat failParse sampleWireObj = .ok P ∧
      P.location = ⟨"addr", "Nairobi", "nb", none, none⟩ :=
  ⟨(C3_location_parse_propagates failParse sampleWireBadLoc).1
      "\x7binvalid json" "SyntaxError: Unexpected token" rfl rfl,
   (C3_location_parse_propagates failParse sampleWireObj).2
      ⟨"addr", "Nairobi", "nb", none, none⟩ rfl⟩

/-- **C6**: when the wire record carries no joined agent sub-record,
`fromDbFormat` produces the placeholder agent built from `agent_id`, with
every other field empty/false, `role` fixed to `'agent'`, and in particular
`isVerifiedAgent = false` unconditionally. -/
theorem C6_agent_placeholder (parse : String → Except String LocObj)
    (w : WireRecord) (P : PropertyListing) (hagent : w.agent = none)
    (hok : fromDbFormat parse w = .ok P) :
    P.agent = { id := w.agent_id, name := "", email := "", phoneNumber := "",
                isVerifiedAgent := false, profilePictureUrl := "",
                role := "agent", createdAt := "" } := by
  obtain ⟨loc, rfl⟩ := fromDbFormat_ok_shape parse w P hok
  simp [buildListing, agentFromWire, hagent]

/-- Closed witness for `C6_agent_placeholder` at a concrete record with
`agent` omitted and `agent_id = "A1"`. -/
theorem C6_witness :
    ∃ P, fromDbFormat failParse sampleWireObj = .ok P ∧
      P.agent = { id := "A1", name := "", email := "", phoneNumber := "",
                  isVerifiedAgent := false, profilePictureUrl := "",
                  role := "agent", createdAt := "" } :=
  ⟨buildListing sampleWireObj ⟨"addr", "Nairobi", "nb", none, none⟩, rfl,
   C6_agent_placeholder failParse sampleWireObj
     (buildListing sampleWireObj ⟨"addr", "Nairobi", "nb", none, none⟩) rfl rfl⟩

/-! ## Claim about `createListing` -/

/-- **C4**: whatever status the caller supplies, the row `createListing`
sends to the `listings` table has `status = 'pending_verification'` and no
`images` field, and the supplied image URLs are inserted as separate
`property_images` rows keyed by the newly created listing's identifier. -/
theorem C4_create_forces_status (env : CreateEnv) (l : CreateListingInput) :
    (createListing env l).1.status = "pending_verification" ∧
    (createListing env l).1.images = none ∧
    (∀ newId, env.insertResult = .ok newId →
       (createListing env l).2.1 =
         (l.images.getD []).map fun u =>
           { listing_id := newId, url := u, ai_scan_status := "pending",
             ai_scan_scanned_at := none }) := by
  refine ⟨?_, ?_, ?_⟩
  · cases h : env.insertResult <;> simp [createListing, h]
  · cases h : env.insertResult <;> simp [createListing, h]
  · intro newId h
    simp only [createListing, h]
    cases hi : l.images with
    | none => simp
    | some urls =>
        cases urls with
        | nil => simp
        | cons a as => simp

/-- Closed witness for `C4_create_forces_status`: a caller asking for
`status: 'available'` with two image URLs. -/
theorem C4_witness :
    (createListing ⟨.ok "NEW1"⟩
      { title := "t", description := "d", price := 1000, bedrooms := 2,
        bathrooms := 1, areaSqFt := none, amenities := [], status := "available",
        isFeatured := false, location := ⟨"addr", "Nairobi", "nb", none, none⟩,
        images := some ["u1", "u2"] }).1.status = "pending_verification" ∧
    (createListing ⟨.ok "NEW1"⟩
      { title := "t", description := "d", price := 1000, bedrooms := 2,
        bathrooms := 1, areaSqFt := none, amenities := [], status := "available",
        isFeatured := false, location := ⟨"addr", "Nairobi", "nb", none, none⟩,
        images := some ["u1", "u2"] }).2.1 =
      [{ listing_id := "NEW1", url := "u1", ai_scan_status := "pending",
         ai_scan_scanned_at := none },
       { listing_id := "NEW1", url := "u2", ai_scan_status := "pending",
         ai_scan_scanned_at := none }] := by
  have h := C4_create_forces_status ⟨.ok "NEW1"⟩
    { title := "t", description := "d", price := 1000, bedrooms := 2,
      bathrooms := 1, areaSqFt := none, amenities := [], status := "available",
      isFeatured := false, location := ⟨"addr", "Nairobi", "nb", none, none⟩,
      images := some ["u1", "u2"] }
  exact ⟨h.1, (h.2.2 "NEW1" rfl).trans (by decide)⟩

/-! ## Claim about `getAgentMetrics` -/

/-- **C10**: for every agent identifier and every row set the store returns,
`getAgentMetrics` hard-codes `totalViews = 0`, `totalSaves = 0`,
`totalInquiries = 0` and no `averageRating`; only `totalListings` (row count)
and `activeListings` (rows with status `'available'`) depend on the input. -/
theorem C10_metrics_placeholders
    (fetch : String → Except String (List StatusRow)) (agentId : String)
    (rows : List StatusRow) (h : fetch agentId = .ok rows) :
    getAgentMetrics fetch agentId = .ok
      { totalListings := rows.length
        activeListings := (rows.filter fun d => d.status == "available").length
        totalViews := 0
        totalSaves := 0
        totalInquiries := 0
        averageRating := none } := by
  simp [getAgentMetrics, h, Except.map]

/-- Closed witness for `C10_metrics_placeholders` on two concrete rows, one
of which is `'available'`. -/
theorem C10_witness :
    getAgentMetrics
      (fun _ => .ok [⟨"available"⟩, ⟨"rented"⟩]) "A1" =
      .ok { totalListings := 2, activeListings := 1, totalViews := 0,
            totalSaves := 0, totalInquiries := 0, averageRating := none } := by
  have h := C10_metrics_placeholders
    (fun _ => .ok [⟨"available"⟩, ⟨"rented"⟩]) "A1"
    [⟨"available"⟩, ⟨"rented"⟩] rfl
  rw [h]
  rfl

/-! ## Claims about the batch image ingestor -/

theorem jsSplit_ne_nil (sep : Char) : ∀ cs : List Char, jsSplit sep cs ≠ [] := by
  intro cs
  cases cs with
  | nil => simp [jsSplit]
  | cons c cs =>
      simp only [jsSplit]
      cases h : jsSplit sep cs with
      | nil => simp
      | cons g gs => by_cases hc : c = sep <;> simp [hc]

theorem jsSplit_cons_sep (sep : Char) (cs : List Char) (g : List Char)
    (gs : List (List Char)) (h : jsSplit sep cs = g :: gs) :
    jsSplit sep (sep :: cs) = [] :: g :: gs := by
  simp [jsSplit, h]

theorem jsSplit_cons_ne (sep c : Char) (hc : ¬ c = sep) (cs : List Char)
    (g : List Char) (gs : List (List Char)) (h : jsSplit sep cs = g :: gs) :
    jsSplit sep (c :: cs) = (c :: g) :: gs := by
  simp [jsSplit, h, hc]

theorem jsSplit_no_sep (sep : Char) :
    ∀ cs : List Char, sep ∉ cs → jsSplit sep cs = [cs] := by
  intro cs
  induction cs with
  | nil => intro _; rfl
  | cons c cs ih =>
      intro h
      simp only [List.mem_cons, not_or] at h
      have hc : ¬ c = sep := fun e => h.1 e.symm
      rw [jsSplit_cons_ne sep c hc cs cs [] (ih h.2)]

theorem jsSplit_append_sep (sep : Char) :
    ∀ cs ys : List Char,
      2 ≤ (jsSplit sep (cs ++ sep :: ys)).length ∧
      lastGroup (jsSplit sep (cs ++ sep :: ys)) = lastGroup (jsSplit sep ys) := by
  intro cs
  induction cs with
  | nil =>
      intro ys
      obtain ⟨g, gs, h⟩ := List.exists_cons_of_ne_nil (jsSplit_ne_nil sep ys)
      rw [List.nil_append, jsSplit_cons_sep sep ys g gs h, h]
      exact ⟨by simp, rfl⟩
  | cons c cs ih =>
      intro ys
      obtain ⟨hlen, hlast⟩ := ih ys
      obtain ⟨g, gs, h⟩ :=
        List.exists_cons_of_ne_nil (jsSplit_ne_nil sep (cs ++ sep :: ys))
      rw [h] at hlen hlast
      obtain ⟨g2, gs2, rfl⟩ : ∃ g2 gs2, gs = g2 :: gs2 := by
        cases gs with
        | nil => simp at hlen
        | cons a b => exact ⟨a, b, rfl⟩
      rw [List.cons_append]
      by_cases hc : c = sep
      · subst hc
        rw [jsSplit_cons_sep c _ g (g2 :: gs2) h]
        exact ⟨by simp, hlast⟩
      · rw [jsSplit_cons_ne sep c hc _ g (g2 :: gs2) h]
        refine ⟨by simp, ?_⟩
        rw [show lastGroup ((c :: g) :: g2 :: gs2) = lastGroup (g2 :: gs2) from rfl]
        rw [show lastGroup (g :: g2 :: gs2) = lastGroup (g2 :: gs2) from rfl] at hlast
        exact hlast

theorem runFiles_snd_eq_filterMap (env : UploadEnv) (lid : String) :
    ∀ (fs : List UploadFile) (i : Nat),
      (runFiles env lid i fs).2 =
        (List.enumFrom i fs).filterMap
          (fun p => (processFile env lid p.1 p.2).2) := by
  intro fs
  induction fs with
  | nil => intro i; rfl
  | cons f fs ih =>
      intro i
      have he : List.enumFrom i (f :: fs) = (i, f) :: List.enumFrom (i + 1) fs := rfl
      rw [he, List.filterMap_cons]
      cases h : (processFile env lid i f).2 with
      | none => simp [runFiles, h, ih]
      | some u => simp [runFiles, h, ih]

theorem processFile_head_eq (env : UploadEnv) (lid : String) (i : Nat)
    (f : UploadFile) (htype : strStartsWith f.type "image/" = true)
    (hsize : ¬ (f.size > 10 * 1024 * 1024)) :
    (processFile env lid i f).1.head? =
      some (NetCall.storageUpload
        (lid ++ "/" ++ (env.uuid i ++ "." ++ fileExtOf f.name)) false) := by
  by_cases h1 : env.uploadOk i = true
  · simp [processFile, htype, hsize, h1]
  · by_cases h2 : env.retryOk i = true
    · simp [processFile, htype, hsize, h1, h2]
    · simp [processFile, htype, hsize, h1, h2]

/-- **C2**: the batch ingestor never raises because of an individual file's
failure — the sole raised condition is the failed authentication
precondition (raised iff no authenticated user) — and every authenticated
call returns the per-file successes of the input list in input order
(a `filterMap` of the enumerated inputs), whose length is between `0` and
`len(files)` inclusive. -/
theorem C2_batch_never_raises (env : UploadEnv) (lid : String)
    (files : List UploadFile) :
    ((∃ e, (uploadImagesToStorageAndSaveMetadata env lid files).2 = .error e) ↔
       env.user = none) ∧
    (∀ u, env.user = some u →
       (uploadImagesToStorageAndSaveMetadata env lid files).2 =
         .ok (files.enum.filterMap fun p => (processFile env lid p.1 p.2).2) ∧
       ∀ urls, (uploadImagesToStorageAndSaveMetadata env lid files).2 = .ok urls →
         urls.length ≤ files.length) := by
  constructor
  · constructor
    · rintro ⟨e, he⟩
      cases hu : env.user with
      | none => rfl
      | some u => simp [uploadImagesToStorageAndSaveMetadata, hu] at he
    · intro hu
      exact ⟨"User must be authenticated to upload images",
             by simp [uploadImagesToStorageAndSaveMetadata, hu]⟩
  · intro u hu
    constructor
    · simp only [uploadImagesToStorageAndSaveMetadata, hu]
      rw [runFiles_snd_eq_filterMap env lid files 0]
      rfl
    · intro urls hurls
      simp only [uploadImagesToStorageAndSaveMetadata, hu, Except.ok.injEq] at hurls
      rw [← hurls, runFiles_snd_eq_filterMap env lid files 0]
      calc ((List.enumFrom 0 files).filterMap
              (fun p => (processFile env lid p.1 p.2).2)).length
          ≤ (List.enumFrom 0 files).length := List.length_filterMap_le _ _
        _ = files.length := List.enumFrom_length

/-- Closed witness for `C2_batch_never_raises`: an authenticated batch of
three files whose second file has a non-image media type returns exactly the
two URLs of files 1 and 3, in input order. -/
theorem C2_witness :
    (uploadImagesToStorageAndSaveMetadata envAuth "L1"
        [⟨"a.jpg", "image/jpeg", 100⟩, ⟨"doc.pdf", "application/pdf", 100⟩,
         ⟨"c.png", "image/png", 100⟩]).2 =
      .ok ["https://cdn/L1/u0.jpg", "https://cdn/L1/u0.png"] ∧
    (2 : Nat) ≤ 3 := by
  have h := (C2_batch_never_raises envAuth "L1"
    [⟨"a.jpg", "image/jpeg", 100⟩, ⟨"doc.pdf", "application/pdf", 100⟩,
     ⟨"c.png", "image/png", 100⟩]).2 "agent@example.com" rfl
  exact ⟨h.1.trans rfl, by decide⟩

/-- **C8**: in the per-file size validation, a file of exactly
`10*1024*1024` bytes passes validation and proceeds to upload (the trace
begins with a storage upload), while a file of `10*1024*1024 + 1` bytes is
skipped — no calls, no URL — and the batch continues with the remaining
files unchanged. -/
theorem C8_size_boundary (env : UploadEnv) (lid : String) (i : Nat)
    (f : UploadFile) (htype : strStartsWith f.type "image/" = true) :
    (f.size = 10 * 1024 * 1024 →
       ∃ p rest, (processFile env lid i f).1 = NetCall.storageUpload p false :: rest) ∧
    (f.size = 10 * 1024 * 1024 + 1 →
       processFile env lid i f = ([], none) ∧
       ∀ fs, runFiles env lid i (f :: fs) = runFiles env lid (i + 1) fs) := by
  constructor
  · intro hsize
    have hle : ¬ (f.size > 10 * 1024 * 1024) := by omega
    have hh := processFile_head_eq env lid i f htype hle
    cases htr : (processFile env lid i f).1 with
    | nil => rw [htr] at hh; exact absurd hh (by simp)
    | cons a rest =>
        rw [htr] at hh
        simp only [List.head?_cons, Option.some.injEq] at hh
        refine ⟨lid ++ "/" ++ (env.uuid i ++ "." ++ fileExtOf f.name), rest, ?_⟩
        rw [hh]
  · intro hsize
    have hgt : f.size > 10 * 1024 * 1024 := by omega
    have hpf : processFile env lid i f = ([], none) := by
      simp [processFile, htype, hgt]
    refine ⟨hpf, ?_⟩
    intro fs
    simp [runFiles, hpf]

/-- Closed witness for `C8_size_boundary`: a 10 MiB image is uploaded, a
10 MiB + 1 image is skipped while the rest of the batch proceeds. -/
theorem C8_witness :
    (∃ p rest, (processFile envAuth "L1" 0 ⟨"a.jpg", "image/jpeg", 10485760⟩).1 =
       NetCall.storageUpload p false :: rest) ∧
    processFile envAuth "L1" 0 ⟨"big.jpg", "image/jpeg", 10485761⟩ = ([], none) :=
  ⟨(C8_size_boundary envAuth "L1" 0 ⟨"a.jpg", "image/jpeg", 10485760⟩
      (by decide)).1 rfl,
   ((C8_size_boundary envAuth "L1" 0 ⟨"big.jpg", "image/jpeg", 10485761⟩
      (by decide)).2 rfl).1⟩

/-- **C9 (counterexample)**: `ingestBatch` on the empty file list does
perform a network call — the authentication request — contradicting the
claim that no network call happens: with an authenticated user the call
returns `[]` but its trace is exactly `[authGetUser]`, and with no
authenticated user it raises instead of returning `[]`. -/
theorem C9_counterexample :
    (uploadImagesToStorageAndSaveMetadata envAuth "L1" []).2 = .ok [] ∧
    (uploadImagesToStorageAndSaveMetadata envAuth "L1" []).1 = [NetCall.authGetUser] ∧
    (uploadImagesToStorageAndSaveMetadata envAuth "L1" []).1 ≠ [] ∧
    (uploadImagesToStorageAndSaveMetadata envNoAuth "L1" []).2 =
      .error "User must be authenticated to upload images" :=
  ⟨rfl, rfl, by decide, rfl⟩

/-- **C9 (amended)**: `ingestBatch` on an empty file list performs exactly
the authentication request and nothing else — no upload, no public-URL
resolution, no metadata insert; when the caller is authenticated it returns
the empty list, and when not it raises the authentication error. -/
theorem C9_empty_batch (env : UploadEnv) (lid : String) :
    (uploadImagesToStorageAndSaveMetadata env lid []).1 = [NetCall.authGetUser] ∧
    (env.user = none →
       (uploadImagesToStorageAndSaveMetadata env lid []).2 =
         .error "User must be authenticated to upload images") ∧
    (∀ u, env.user = some u →
       (uploadImagesToStorageAndSaveMetadata env lid []).2 = .ok []) := by
  refine ⟨?_, ?_, ?_⟩
  · cases hu : env.user <;>
      simp [uploadImagesToStorageAndSaveMetadata, hu, runFiles]
  · intro hu
    simp [uploadImagesToStorageAndSaveMetadata, hu]
  · intro u hu
    simp [uploadImagesToStorageAndSaveMetadata, hu, runFiles]

/-- Closed witness for `C9_empty_batch` at the concrete authenticated
environment. -/
theorem C9_witness :
    (uploadImagesToStorageAndSaveMetadata envAuth "L1" []).1 = [NetCall.authGetUser] ∧
    (uploadImagesToStorageAndSaveMetadata envAuth "L1" []).2 = .ok [] :=
  ⟨(C9_empty_batch envAuth "L1").1,
   (C9_empty_batch envAuth "L1").2.2 "agent@example.com" rfl⟩

/-- **C7 (counterexample)**: the generated extension for a file named
`"photo"` — a name with no extension — is `"photo"`, not `"jpg"`: the code's
`name.split('.').pop() || 'jpg'` only falls back to `'jpg'` when the last
dot-separated segment is empty, and for a dotless name the whole name is
that segment. The upload path is `L1/u0.photo`, not `L1/u0.jpg`. -/
theorem C7_counterexample :
    fileExtOf "photo" = "photo" ∧ ("photo" : String) ≠ "jpg" ∧
    (processFile envAuth "L1" 0 ⟨"photo", "image/png", 5⟩).1.head? =
      some (NetCall.storageUpload "L1/u0.photo" false) ∧
    ("L1/u0.photo" : String) ≠ "L1/u0.jpg" :=
  ⟨rfl, by decide, rfl, by decide⟩

/-- **C7 (amended)**: the generated extension is the last dot-separated
segment of the file name: a name whose last segment is empty (the empty name
or a name ending in `'.'`) gets `'jpg'`; a name `pre.ext` with a dot-free
non-empty `ext` keeps `ext`; a dot-free non-empty name uses the whole name
as the extension (not `'jpg'`); and the storage path is composed as
`{listingId}/{generatedUniqueName}.{extension}` with the listing identifier
as the leading directory segment. -/
theorem C7_extension_rule :
    (∀ cs : List Char, '.' ∉ cs → cs ≠ [] → fileExtChars cs = cs) ∧
    fileExtChars [] = "jpg".data ∧
    (∀ cs : List Char, fileExtChars (cs ++ ['.']) = "jpg".data) ∧
    (∀ pre ext : List Char, '.' ∉ ext → ext ≠ [] →
       fileExtChars (pre ++ '.' :: ext) = ext) ∧
    (∀ (env : UploadEnv) (lid : String) (i : Nat) (f : UploadFile),
       strStartsWith f.type "image/" = true → f.size ≤ 10 * 1024 * 1024 →
       (processFile env lid i f).1.head? =
         some (NetCall.storageUpload
           (lid ++ "/" ++ (env.uuid i ++ "." ++ fileExtOf f.name)) false)) := by
  refine ⟨?_, rfl, ?_, ?_, ?_⟩
  · intro cs hns hne
    rw [fileExtChars, jsSplit_no_sep '.' cs hns]
    simp [lastGroup, hne]
  · intro cs
    have h := (jsSplit_append_sep '.' cs []).2
    rw [fileExtChars, h]
    rfl
  · intro pre ext hns hne
    have h := (jsSplit_append_sep '.' pre ext).2
    rw [fileExtChars, h, jsSplit_no_sep '.' ext hns]
    simp [lastGroup, hne]
  · intro env lid i f htype hsize
    exact processFile_head_eq env lid i f htype (by omega)

/-- Closed witness for `C7_extension_rule` at concrete names: a dotless name
keeps itself as extension, a trailing-dot name falls back to `'jpg'`, a
normal `a.png` keeps `png`, and a concrete in-budget file's upload path is
`{listingId}/{uuid}.{ext}`. -/
theorem C7_witness :
    fileExtChars "photo".data = "photo".data ∧
    fileExtChars ("name".data ++ ['.']) = "jpg".data ∧
    fileExtChars ("a".data ++ '.' :: "png".data) = "png".data ∧
    (processFile envAuth "L1" 0 ⟨"a.png", "image/png", 5⟩).1.head? =
      some (NetCall.storageUpload
        ("L1" ++ "/" ++ (envAuth.uuid 0 ++ "." ++ fileExtOf "a.png")) false) :=
  ⟨C7_extension_rule.1 "photo".data (by decide) (by decide),
   C7_extension_rule.2.2.1 "name".data,
   C7_extension_rule.2.2.2.1 "a".data "png".data (by decide) (by decide),
   C7_extension_rule.2.2.2.2 envAuth "L1" 0 ⟨"a.png", "image/png", 5⟩
     (by decide) (by decide)⟩

end Rentify
